import Mathlib

/-!
Verification of the genetic-algorithm library (`src/ga`, `src/utils`).

The Python modules are shallowly embedded: numpy structured arrays become
lists of an `Individual` record, floats become rationals, and each of the
library's two `Result` classes is modelled by its own record.  Fallible
functions that return the unpackable named-tuple `utils.result.Result`
(the selection module, and the spec-modelled recombination and merge)
are embedded into `Except String _`; functions that return or unpack the
plain, non-iterable `ga.types.result.Result` class are embedded with an
outer `Except String _` layer whose `.error` is an uncaught Python
exception, because tuple-unpacking such a `Result` raises `TypeError`
(`population.py` unpacking `create_individual_dtype`'s result, and
`core.py` unpacking the results of `initialize_population` and
`mutate`).  The numpy random generator is modelled by an explicit `Rng`
record of oracle families indexed by a call counter that the embedding
threads through every stochastic call, exactly where the source passes
its `rng` object.

Two pieces of the library are referenced by `src/ga/core.py` and by the
test suite but are absent from the source tree (`ga/recombination.py`
and `ga.population.update_population`); those two definitions are
modelled from the specification and are marked as such in their doc
comments.  Everything else is translated from the source files.
-/

set_option linter.unusedVariables false

deriving instance DecidableEq for Except

/-- Individual record of the population arrays built by
`ga/population.py` (`create_individual_dtype`): an integer `index`, a
`dim`-long float vector `point`, and a float `evaluation`. -/
structure Individual where
  index : Int
  point : List ℚ
  evaluation : ℚ
deriving DecidableEq, Inhabited, Repr

/-- Population alias from `ga/population.py` (`Population = np.ndarray`). -/
abbrev Population := List Individual

/-- Model of `numpy.random.Generator`: one oracle family per sampling
primitive the library uses, each indexed by a call counter so that
successive calls may return different draws.  `uniform2 t lo hi n d`
models `rng.uniform(lo, hi, size=(n, d))`; `choiceIdx t n k` models the
positions picked by `rng.choice(range(n), k, replace=False)` (and, for
`rng.choice(arr, k, replace=False)`, the positions into `arr`);
`normalAt t n` models `rng.normal(0, 1, n)`; `standardTAt t n` models
`rng.standard_t(1, n)`; `uniformNoiseAt t lo hi n` models
`rng.uniform(lo, hi, n)`. -/
structure Rng where
  uniform2 : Nat → ℚ → ℚ → Nat → Nat → List (List ℚ)
  choiceIdx : Nat → Nat → Nat → List Nat
  normalAt : Nat → Nat → List ℚ
  standardTAt : Nat → Nat → List ℚ
  uniformNoiseAt : Nat → ℚ → ℚ → Nat → List ℚ

/-- Contract of the numpy generator that the embedding relies on:
`uniform` returns an array of the requested shape whose entries lie
within the requested bounds, and `choice(range(n), k, replace=False)`
returns `k` distinct positions below `n` whenever `k ≤ n`. -/
def Rng.WF (rng : Rng) : Prop :=
  (∀ t lo hi n d, lo < hi →
      (rng.uniform2 t lo hi n d).length = n ∧
      ∀ row ∈ rng.uniform2 t lo hi n d, row.length = d ∧ ∀ x ∈ row, lo ≤ x ∧ x ≤ hi) ∧
  (∀ t n k, k ≤ n →
      (rng.choiceIdx t n k).length = k ∧ (rng.choiceIdx t n k).Nodup ∧
      ∀ i ∈ rng.choiceIdx t n k, i < n)

/-! ### The two Result types (`src/ga/types/result.py`, `src/utils/result.py`) -/

/-- Shape of `ga.types.result.Result`: a class holding an optional
`value` and an optional `error` field. -/
structure GaResult (T E : Type) where
  value : Option T
  error : Option E
deriving DecidableEq, Repr

/-- Constructor of `ga.types.result.Result`: `__init__` raises
`ValueError` when both fields are set and when neither is, so
construction is modelled as returning `none` (exception) in exactly
those cases. -/
def GaResult.make (value : Option T) (error : Option E) : Option (GaResult T E) :=
  if value.isSome && error.isSome then none
  else if value.isNone && error.isNone then none
  else some ⟨value, error⟩

/-- Method `is_ok` of `ga.types.result.Result` (`self.value is not None`). -/
def GaResult.is_ok (r : GaResult T E) : Bool := r.value.isSome

/-- Method `is_error` of `ga.types.result.Result` (`self.error is not None`). -/
def GaResult.is_error (r : GaResult T E) : Bool := r.error.isSome

/-- Shape of `utils.result.Result`: a `NamedTuple` with fields `value`
and `error`, both defaulting to `None`.  Its constructor performs no
validation, so it is modelled as a total function. -/
structure UResult (T E : Type) where
  value : Option T := none
  error : Option E := none
deriving DecidableEq, Repr

/-- Constructor of `utils.result.Result`: the `NamedTuple` constructor
always succeeds, whatever combination of fields is supplied. -/
def UResult.make (value : Option T) (error : Option E) : UResult T E := ⟨value, error⟩

/-- Method `is_ok` of `utils.result.Result` (`self.value is not None`). -/
def UResult.is_ok (r : UResult T E) : Bool := r.value.isSome

/-- Method `is_error` of `utils.result.Result` (`self.error is not None`). -/
def UResult.is_error (r : UResult T E) : Bool := r.error.isSome

/-- Uncaught exception raised by CPython when tuple-unpacking an
instance of the plain `ga.types.result.Result` class, which defines
neither `__iter__` nor `__getitem__`: `a, b = r` fails with
`TypeError: cannot unpack non-iterable Result object`, whether `r` is
`Ok` or `Error`.  (The `utils.result.Result` named tuple, by contrast,
unpacks into its `(value, error)` fields.) -/
def pyUnpackTypeError : String := "TypeError: cannot unpack non-iterable Result object"

/-! ### `src/ga/population.py` -/

/-- Embedding of `create_individual_dtype`: the dtype itself is carried
by the `Individual` record, so the returned `ga.types` `Result` carries
`Unit` in place of the dtype; the dimension validation returns
`Result.Error` for `dim <= 0` and `Result.Ok` otherwise. -/
def create_individual_dtype (dim : Int) : GaResult Unit String :=
  if dim ≤ 0 then ⟨none, some "Dimension must be greater than zero"⟩
  else ⟨some (), none⟩

/-- Embedding of `initialize_population` as staged.  The boundary and
size checks return `ga.types` error `Result`s, but the next line,
`dtype, err = create_individual_dtype(dim)`, tuple-unpacks the
non-iterable `ga.types` `Result` that `create_individual_dtype`
returns — `Ok` and `Error` alike — so every input that passes the two
checks raises `TypeError`; neither the `dim <= 0` error nor the
comprehension that would build the population from
`distribution_function(*boundaries, size=(population_size, dim))` is
ever reached.  The outer `.error` is the uncaught exception. -/
def initialize_population (distribution_function : ℚ → ℚ → Nat → Nat → List (List ℚ))
    (dim : Int) (boundaries : ℚ × ℚ) (population_size : Int) :
    Except String (GaResult Population String) :=
  if boundaries.1 ≥ boundaries.2 then
    .ok ⟨none, some "Invalid boundaries: min must be less than max"⟩
  else if population_size < 0 then
    .ok ⟨none, some "Population size must be non-negative"⟩
  else
    let _dtype_result := create_individual_dtype dim
    .error pyUnpackTypeError

/-- Modelled from the spec: `ga.population.update_population` is
imported by `ga/core.py` and exercised by `src/test/population_test.py`
but its definition is absent from the source tree.  Following §4.1
(`mergeUpdates`): every update's `index` must match the `index` of some
individual of `population`, otherwise the call fails (error string from
`test_invalid_indices`) and, being atomic, leaves the population
unmerged; on success every individual whose `index` is matched is
replaced wholesale by the (first) matching update and all others are
kept.  Which of several same-index updates wins is not pinned down by
the spec; this model takes the first. -/
def update_population (population : Population) (new_values : Population) :
    Except String Population :=
  if new_values.all (fun u => population.any (fun p => p.index = u.index)) then
    .ok (population.map (fun p => ((new_values.find? (fun u => u.index = p.index)).getD p)))
  else .error "Invalid indices in new values"

/-! ### `src/ga/selection.py` -/

/-- Enumeration `SelectionType` from `ga/selection.py`. -/
inductive SelectionType where
  | TOURNAMENT
  | ROULETTE
  | RANK
deriving DecidableEq, Repr

/-- Python slice `l[:k]` for an `int` bound `k`: the first `k` elements
for `k ≥ 0`, and all but the last `|k|` elements for `k < 0`. -/
def pySlice (l : List α) (k : Int) : List α :=
  if 0 ≤ k then l.take k.toNat else l.take (l.length - (-k).toNat)

/-- Comparison `np.sort(..., order="evaluation")` sorts by: evaluation
ascending. -/
def evalLE (a b : Individual) : Prop := a.evaluation ≤ b.evaluation

instance : DecidableRel evalLE := fun a b => inferInstanceAs (Decidable (a.evaluation ≤ b.evaluation))

instance : IsTotal Individual evalLE := ⟨fun a b => le_total a.evaluation b.evaluation⟩

instance : IsTrans Individual evalLE := ⟨fun _ _ _ h1 h2 => le_trans h1 h2⟩

/-- Ascending sort of a population by `evaluation`, modelling
`np.sort(population, order="evaluation")`.  The source's quicksort is
modelled by a comparison sort; every property proved below is invariant
under the order of equal-evaluation individuals. -/
def sortByEval (population : Population) : Population :=
  List.insertionSort evalLE population

/-- Embedding of `rank_selection`: ascending sort by evaluation
truncated to the first `competition_size` elements; never fails. -/
def rank_selection (population : Population) (competition_size : Int) :
    Except String Population :=
  .ok (pySlice (sortByEval population) competition_size)

/-- Python `min(group, key=...)` over a list of positions: the first
position attaining the minimal key (Python's `min` keeps the earliest
minimum; the fold replaces the best only on a strictly smaller key).
Empty input is unreachable at the call site (groups have
`n_competitors ≥ 1` members). -/
def pyMinKey (f : Nat → ℚ) : List Nat → Nat
  | [] => 0
  | x :: xs => xs.foldl (fun best y => if f y < f best then y else best) x

/-- Embedding of `tournament_selection`.  The first `rng.choice` draws
`competition_size` distinct positions of the population; the second
draws `n_groups * n_competitors` distinct positions into that first
draw (numpy's 2-D `size` only reshapes a flat without-replacement
sample), which the embedding keeps flat and slices into consecutive
groups of `n_competitors`.  Each group's winner is the population entry
at the group's minimal-evaluation position.  For `n_competitors = 0`
the source raises (`int(inf)`) instead of returning a `Result`;
theorems therefore assume `1 ≤ n_competitors`. -/
def tournament_selection (rng : Rng) (t : Nat) (population : Population)
    (competition_size : Int) (n_competitors : Nat := 2) :
    Except String (Population × Nat) :=
  if competition_size > (population.length : Int) then
    .error "Competition size larger than population"
  else if competition_size < (n_competitors : Int) then
    .error "Not enough competitors to form a single group"
  else
    let selIdx := rng.choiceIdx t population.length competition_size.toNat
    let nGroups := competition_size.toNat / n_competitors
    let flatPos := rng.choiceIdx (t + 1) selIdx.length (nGroups * n_competitors)
    let flatIdx := flatPos.map (fun p => selIdx.getD p 0)
    let winners := (List.range nGroups).map (fun g =>
      let group := (flatIdx.drop (g * n_competitors)).take n_competitors
      population.getD (pyMinKey (fun j => (population.getD j default).evaluation) group) default)
    .ok (winners, t + 2)

/-- Embedding of `select`: dispatch on the selection type.  The
source's `case _` arm is unreachable for members of the closed
`SelectionType` enumeration. -/
def select (rng : Rng) (t : Nat) (population : Population) (competition_size : Int)
    (selection_type : SelectionType) (n_competitors : Nat := 2) :
    Except String (Population × Nat) :=
  match selection_type with
  | .TOURNAMENT => tournament_selection rng t population competition_size n_competitors
  | .RANK =>
      match rank_selection population competition_size with
      | .error e => .error e
      | .ok s => .ok (s, t)
  | .ROULETTE => .error "Roulette wheel selection not implemented yet"

/-! ### `src/ga/mutation.py` -/

/-- Enumeration `MutationMethod` from `ga/mutation.py`. -/
inductive MutationMethod where
  | NORMAL
  | STANDART
  | UNIFORM
deriving DecidableEq, Repr

/-- Noise vector added by `mutation_func` to one individual's point:
`rng.normal(0, 1, x.shape)`, `rng.standard_t(1, x.shape)` or
`rng.uniform(-1, 1, x.shape)` according to the method. -/
def noiseFor (rng : Rng) (s : Nat) (method : MutationMethod) (n : Nat) : List ℚ :=
  match method with
  | .NORMAL => rng.normalAt s n
  | .STANDART => rng.standardTAt s n
  | .UNIFORM => rng.uniformNoiseAt s (-1) 1 n

/-- Embedding of `mutate`.  The `match method` of the source selects the
noise distribution and cannot fall through to the invalid-method error
for members of the closed enumeration; then the rate and the emptiness
checks run in source order.  `rng.choice(population, mutation_size,
replace=False)` is modelled by drawing `mutation_size` distinct
positions and copying those individuals; the for-loop rewrites each
copy's `point` and zeroes its `evaluation`. -/
def mutate (rng : Rng) (t : Nat) (method : MutationMethod) (population : Population)
    (mutation_rate : ℚ) : Except String (Population × Nat) :=
  if mutation_rate < 0 ∨ mutation_rate > 1 then .error "Invalid mutation rate"
  else if population.length = 0 then .error "Population must contain at least one individual"
  else
    let mutation_size := (⌊(population.length : ℚ) * mutation_rate⌋).toNat
    let idxs := rng.choiceIdx t population.length mutation_size
    let mutated := idxs.enum.map (fun kj =>
      let ind := population.getD kj.2 default
      Individual.mk ind.index
        (List.zipWith (fun a b => a + b) ind.point (noiseFor rng (t + 1 + kj.1) method ind.point.length))
        0)
    .ok (mutated, t + 1 + idxs.length)

/-- Heap of numpy arrays, for stating what `mutate` does to its caller's
buffer: `arrays` maps an array id to its contents. -/
structure Store where
  arrays : List Population
deriving Repr

/-- Embedding of `mutate` at the array-store level.  Per numpy
semantics, `rng.choice(population, mutation_size, replace=False)`
allocates and returns a fresh array (never a view of `population`), so
the source's for-loop writes `point` and `evaluation` into that fresh
array only.  The store pairs the result with the id of the freshly
allocated array; the value stored there agrees with the pure `mutate`
above. -/
def mutateStore (rng : Rng) (t : Nat) (method : MutationMethod) (store : Store)
    (popId : Nat) (mutation_rate : ℚ) : Store × Except String Nat :=
  let population := store.arrays.getD popId []
  if mutation_rate < 0 ∨ mutation_rate > 1 then (store, .error "Invalid mutation rate")
  else if population.length = 0 then
    (store, .error "Population must contain at least one individual")
  else
    let mutation_size := (⌊(population.length : ℚ) * mutation_rate⌋).toNat
    let idxs := rng.choiceIdx t population.length mutation_size
    let chosen := idxs.map (fun j => population.getD j default)
    let mid := store.arrays.length
    let store1 : Store := ⟨store.arrays ++ [chosen]⟩
    let store2 : Store := ⟨store1.arrays.set mid (chosen.enum.map (fun kc =>
        Individual.mk kc.2.index
          (List.zipWith (fun a b => a + b) kc.2.point (noiseFor rng (t + 1 + kc.1) method kc.2.point.length))
          0))⟩
    (store2, .ok mid)

/-! ### Recombination (modelled from the spec) -/

/-- Enumeration `RecombinationMethod`, named in `ga/core.py` and
`src/test/recombination_test.py`; the module defining it is absent from
the source tree. -/
inductive RecombinationMethod where
  | MEAN
  | MAX
  | MIN
deriving DecidableEq, Repr

/-- Elementwise blend of a group of parent points: mean, max or min per
coordinate (spec §4.3). -/
def blend (method : RecombinationMethod) (pts : List (List ℚ)) : List ℚ :=
  match pts with
  | [] => []
  | p :: rest =>
    match method with
    | .MEAN => (rest.foldl (fun acc q => List.zipWith (fun a b => a + b) acc q) p).map
        (fun x => x / ((rest.length + 1 : Nat) : ℚ))
    | .MAX => rest.foldl (fun acc q => List.zipWith max acc q) p
    | .MIN => rest.foldl (fun acc q => List.zipWith min acc q) p

/-- Modelled from the spec: `ga/recombination.py` is absent from the
source tree (only `ga/core.py` and `src/test/recombination_test.py`
reference it).  Validation follows §4.3 in order, with the error
strings asserted by the tests; the method check cannot fail for members
of the closed enumeration.  The grouping policy is implementation-defined
per §4.3/§9; this model takes consecutive disjoint groups of
`n_parents` parents (leftovers discarded, hence
`⌊|parents| / n_parents⌋ ≥ 1` children on success), blends each group
elementwise, gives the child the group's first parent's `index`, and
initializes `evaluation` to `0`.  Its `Result` is modelled as the
unpackable named-tuple variant (embedded into `Except`), since
`ga/core.py` tuple-unpacks the value it returns without raising in the
staged tests that reach it. -/
def recombine (rng : Rng) (method : RecombinationMethod) (parents : Population)
    (n_parents : Nat := 2) : Except String Population :=
  if n_parents < 2 then .error "Number of parents must be at least 2"
  else if parents.length < 2 then .error "Selected population must contain at least 2 individuals"
  else if n_parents > parents.length then .error "Number of parents exceeds selected population size"
  else
    .ok ((List.range (parents.length / n_parents)).map (fun g =>
      let group := (parents.drop (g * n_parents)).take n_parents
      Individual.mk (group.headD default).index (blend method (group.map (·.point))) 0))

/-! ### `src/ga/core.py` -/

/-- Parameters of `run` other than the generation count, with the
source's names and defaults. -/
structure GAConfig where
  func : List ℚ → ℚ
  dim : Int
  boundaries : ℚ × ℚ
  population_size : Int
  mutation_rate : ℚ
  recombination_rate : ℚ
  selection_type : SelectionType := .TOURNAMENT
  recombination_method : RecombinationMethod := .MEAN
  mutation_method : MutationMethod := .NORMAL
  n_competitors : Nat := 2
  n_parents : Nat := 2

/-- Outcome of one iteration of `run`'s generational loop when it does
not raise: an early `return Result.Error(err)` from a stage's error
check, or the next loop state (population together with the rng call
counter). -/
inductive StepOut where
  | ret : GaResult Population String → StepOut
  | next : Population → Nat → StepOut

/-- Body of `run`'s `for i in range(n_generations)` loop as staged.
`parents, err = select(...)` unpacks the `utils` named-tuple `Result`
(which is iterable), so a selection error becomes an early
`return Result.Error(err)`; likewise for `recombine`.  The next line,
`mutated_children, err = mutate(...)`, tuple-unpacks the `ga.types`
`Result` that `mutation.py` returns — not iterable, `Ok` and `Error`
alike — so the loop body raises `TypeError` there; the merge, the
batch re-evaluation and the end-of-generation rank cut of the source
are unreachable. -/
def generationStep (rng : Rng) (cfg : GAConfig) (st : Population × Nat) :
    Except String StepOut :=
  match select rng st.2 st.1 ⌊(cfg.population_size : ℚ) * cfg.recombination_rate⌋
      cfg.selection_type cfg.n_competitors with
  | .error e => .ok (.ret ⟨none, some e⟩)
  | .ok (parents, t1) =>
    match recombine rng cfg.recombination_method parents cfg.n_parents with
    | .error e => .ok (.ret ⟨none, some e⟩)
    | .ok children =>
      let population := st.1 ++ children
      let _mutation_result := mutate rng t1 cfg.mutation_method population cfg.mutation_rate
      .error pyUnpackTypeError

/-- Iteration of `generationStep` for the remaining generations: an
uncaught exception or an early `return` stops the loop. -/
def runGens (rng : Rng) (cfg : GAConfig) : Nat → Population × Nat → Except String StepOut
  | 0, st => .ok (.next st.1 st.2)
  | Nat.succ g, st =>
    match generationStep rng cfg st with
    | .error e => .error e
    | .ok (.ret r) => .ok (.ret r)
    | .ok (.next population t) => runGens rng cfg g (population, t)

/-- Prelude of `run` before the loop as staged: the line
`population, err = initialize_population(rng.uniform, ...)` either
propagates the `TypeError` raised inside `initialize_population` or
itself raises one unpacking the returned non-iterable `ga.types`
`Result` (`Error` for bad boundaries or a negative size, `Ok`
otherwise) — so the batch evaluation and the initial rank cut of the
source are unreachable and the phase never produces a loop state. -/
def initPhase (rng : Rng) (cfg : GAConfig) : Except String (Population × Nat) :=
  match initialize_population (rng.uniform2 0) cfg.dim cfg.boundaries cfg.population_size with
  | .error e => .error e
  | .ok _init_result => .error pyUnpackTypeError

/-- Embedding of `run` as staged: the initial phase followed by the
generational loop, with an early `return Result.Error(err)` or the
final `return Result.Ok(population)` delivering a `ga.types` `Result`,
and any uncaught exception delivered as the outer `.error`.  Because
the initial phase always raises, the loop and both returns are dead
code. -/
def run (rng : Rng) (cfg : GAConfig) (n_generations : Nat) :
    Except String (GaResult Population String) :=
  match initPhase rng cfg with
  | .error e => .error e
  | .ok st =>
    match runGens rng cfg n_generations st with
    | .error e => .error e
    | .ok (.ret r) => .ok r
    | .ok (.next population _t) => .ok ⟨some population, none⟩

/-! ### Concrete instances used by the theorems -/

/-- Concrete random source: the uniform oracle spreads rows inside the
requested bounds (first row at `lo`, the rest at the midpoint), choice
picks the first `k` positions, the noise oracles are constant.  It
satisfies `Rng.WF`. -/
def cexRng : Rng where
  uniform2 := fun _ lo hi n d =>
    (List.range n).map (fun i => List.replicate d (if i = 0 then lo else lo + (hi - lo) / 2))
  choiceIdx := fun _ _ k => List.range k
  normalAt := fun _ n => List.replicate n 9
  standardTAt := fun _ n => List.replicate n 9
  uniformNoiseAt := fun _ _ _ n => List.replicate n 0

/-- Concrete run configuration, used by the witnesses. -/
def cexCfg : GAConfig where
  func := fun p => p.foldl (fun a b => a + b) 0
  dim := 1
  boundaries := (0, 10)
  population_size := 2
  mutation_rate := 1/3
  recombination_rate := 1
  selection_type := .RANK
  recombination_method := .MEAN
  mutation_method := .NORMAL

/-- Example population of `src/test/population_test.py`. -/
def examplePopulation : Population := [⟨0, [1, 2], 1/2⟩, ⟨1, [3, 4], 7/10⟩]

/-- Update batch with an index absent from `examplePopulation`, as in
`test_invalid_indices`. -/
def exampleBadUpdates : Population := [⟨2, [3/2, 5/2], 4/5⟩]

/-- Update batch matching index `0` of `examplePopulation`, as in
`test_basic_update`. -/
def exampleGoodUpdates : Population := [⟨0, [3/2, 5/2], 4/5⟩]

/-- Population of four individuals with pairwise distinct evaluations,
for exercising tournament selection. -/
def tournPop : Population := [⟨0, [0], 4⟩, ⟨1, [0], 3⟩, ⟨2, [0], 2⟩, ⟨3, [0], 1⟩]

/-! ### Basic lemmas -/

lemma cexRng_wf : Rng.WF cexRng := by
  constructor
  · intro t lo hi n d hlt
    constructor
    · simp [cexRng]
    · intro row hrow
      simp only [cexRng, List.mem_map, List.mem_range] at hrow
      obtain ⟨i, _, hrowEq⟩ := hrow
      subst hrowEq
      refine ⟨List.length_replicate _ _, ?_⟩
      intro x hx
      rw [List.eq_of_mem_replicate hx]
      split
      · exact ⟨le_refl lo, le_of_lt hlt⟩
      · constructor <;> [linarith; linarith]
  · intro t n k hk
    refine ⟨List.length_range k, List.nodup_range k, ?_⟩
    intro i hi
    exact lt_of_lt_of_le (List.mem_range.mp hi) hk

/-! ### The staged `Result` unpacking -/

lemma initPhase_crash (rng : Rng) (cfg : GAConfig) :
    initPhase rng cfg = .error pyUnpackTypeError := by
  simp only [initPhase, initialize_population]
  split_ifs <;> rfl

lemma run_crash (rng : Rng) (cfg : GAConfig) (n_generations : Nat) :
    run rng cfg n_generations = .error pyUnpackTypeError := by
  simp only [run, initPhase_crash]

/-- Claim C1 (code bug): `run` never returns any stage's error as its
result — on every input it raises
`TypeError: cannot unpack non-iterable Result object` at the line
`population, err = initialize_population(...)`, because the plain
`ga.types.result.Result` class is not iterable (`Ok` and `Error`
alike); the generational loop, whose own `mutate` unpack would raise
the same way, is never entered, contradicting the claimed fail-fast
`Result` propagation and the expectations of `core_test.py`. -/
theorem run_raises_type_error (rng : Rng) (cfg : GAConfig) (n_generations : Nat) :
    run rng cfg n_generations = .error pyUnpackTypeError :=
  run_crash rng cfg n_generations

/-- Claim C2 (code bug): there are no successful runs to exhibit the
population-size invariant — `run` never returns `Ok`, since every
invocation raises the unpack `TypeError` before the loop, contradicting
`test_successful_run`, which expects a final population of
`population_size` individuals. -/
theorem run_never_ok (rng : Rng) (cfg : GAConfig) (n_generations : Nat) :
    (run rng cfg n_generations).isOk = false := by
  rw [run_crash]
  rfl

/-- Claim C7 (code bug): the staged `run` reaches no generation
boundary at all — the initial phase raises the unpack `TypeError` on
every input before the initial rank cut, so the claimed
boundary-over-boundary monotonicity of the minimum evaluation concerns
states the program never produces. -/
theorem run_reaches_no_generation_boundary (rng : Rng) (cfg : GAConfig) :
    initPhase rng cfg = .error pyUnpackTypeError :=
  initPhase_crash rng cfg

/-- Claim C4 (code bug): complete behavior of the staged
`initialize_population` — a returned `ga.types` error `Result` for bad
boundaries, likewise for a negative size, and for every input passing
both checks the unpack `TypeError` raised at
`dtype, err = create_individual_dtype(dim)`.  The claimed `Ok` result
with `size` individuals (and the dtype validation's own `dim <= 0`
error) is never returned for any input, contradicting
`test_initialize_population`. -/
theorem initialize_population_behavior (f : ℚ → ℚ → Nat → Nat → List (List ℚ))
    (dim : Int) (lo hi : ℚ) (size : Int) :
    (lo ≥ hi → initialize_population f dim (lo, hi) size =
      .ok ⟨none, some "Invalid boundaries: min must be less than max"⟩) ∧
    (¬(lo ≥ hi) → size < 0 → initialize_population f dim (lo, hi) size =
      .ok ⟨none, some "Population size must be non-negative"⟩) ∧
    (¬(lo ≥ hi) → ¬(size < 0) → initialize_population f dim (lo, hi) size =
      .error pyUnpackTypeError) := by
  refine ⟨?_, ?_, ?_⟩
  · intro h
    simp only [initialize_population]
    split_ifs
    rfl
  · intro h1 h2
    simp only [initialize_population]
    split_ifs
    rfl
  · intro h1 h2
    simp only [initialize_population]
    split_ifs
    rfl

/-- Witness for C4's divergence: the valid input of
`test_initialize_population` (boundaries `(0, 1)`, size `5`,
dimension `2`) makes the staged `initialize_population` raise instead
of returning `Ok` with five individuals. -/
theorem initialize_population_behavior_witness :
    ¬((0 : ℚ) ≥ 1) ∧ ¬((5 : Int) < 0) ∧
    initialize_population (cexRng.uniform2 0) 2 (0, 1) 5 = .error pyUnpackTypeError := by
  refine ⟨by norm_num, by norm_num, ?_⟩
  exact (initialize_population_behavior (cexRng.uniform2 0) 2 0 1 5).2.2
    (by norm_num) (by norm_num)

/-! ### Merge and initialization -/

lemma update_population_cond (population new_values : Population) :
    (new_values.all (fun u => population.any (fun p => p.index = u.index)) = true) ↔
    ∀ u ∈ new_values, ∃ p ∈ population, p.index = u.index := by
  simp [List.all_eq_true, List.any_eq_true]

/-- Claim C3: the merge is index-keyed and all-or-nothing — it returns
the invalid-indices error exactly when some update's index matches no
individual of the population (the pure model returns only the error
then, so no partially merged population can be observed), and when
every update index matches it succeeds with a population of the same
length in which every individual whose index is matched is replaced
wholesale (index, point and evaluation) by the matching update and
every unmatched individual is returned unchanged. -/
theorem update_population_merge_spec (population new_values : Population) :
    (update_population population new_values = .error "Invalid indices in new values" ↔
      ∃ u ∈ new_values, ∀ p ∈ population, p.index ≠ u.index) ∧
    ((∀ u ∈ new_values, ∃ p ∈ population, p.index = u.index) →
      ∃ out, update_population population new_values = .ok out ∧
        out.length = population.length ∧
        ∀ k, k < population.length →
          (((population.getD k default).index ∉ new_values.map Individual.index →
              out.getD k default = population.getD k default) ∧
            ∀ u, new_values.find? (fun v => v.index = (population.getD k default).index) =
                some u →
              out.getD k default = u)) := by
  constructor
  · simp only [update_population]
    split_ifs with hcond
    · constructor
      · intro h
        exact h.elim
      · rintro ⟨u, hu, hall⟩
        obtain ⟨p, hp, heq⟩ := (update_population_cond population new_values).mp hcond u hu
        exact absurd heq (hall p hp)
    · constructor
      · intro _
        have hno := hcond
        rw [update_population_cond] at hno
        push_neg at hno
        exact hno
      · intro _
        rfl
  · intro hall
    refine ⟨population.map (fun p => ((new_values.find? (fun u => u.index = p.index)).getD p)),
      ?_, List.length_map _ _, ?_⟩
    · simp only [update_population, if_pos ((update_population_cond _ _).mpr hall)]
    · intro k hk
      have hget : (population.map
            (fun p => ((new_values.find? (fun u => u.index = p.index)).getD p))).getD k default =
          (new_values.find? (fun u =>
            u.index = (population.getD k default).index)).getD (population.getD k default) := by
        rw [List.getD_eq_getElem _ _ (by simpa using hk), List.getElem_map,
          List.getD_eq_getElem _ _ hk]
      rw [hget]
      constructor
      · intro hnot
        rw [List.find?_eq_none.mpr ?_]
        · rfl
        · intro u hu
          simp only [decide_eq_true_eq]
          intro heq
          exact hnot (List.mem_map.mpr ⟨u, hu, heq⟩)
      · intro u hfind
        rw [hfind]
        rfl

/-- Witness for C3: the update batch of `test_invalid_indices` (index
`2`, absent from the example population) makes the merge fail with the
invalid-indices error. -/
theorem update_population_merge_spec_witness :
    (∃ u ∈ exampleBadUpdates, ∀ p ∈ examplePopulation, p.index ≠ u.index) ∧
    update_population examplePopulation exampleBadUpdates =
      .error "Invalid indices in new values" := by
  have h1 : ∃ u ∈ exampleBadUpdates, ∀ p ∈ examplePopulation, p.index ≠ u.index := by
    refine ⟨⟨2, [3/2, 5/2], 4/5⟩, by simp [exampleBadUpdates], ?_⟩
    intro p hp
    rcases List.mem_cons.mp hp with h | h
    · rw [h]
      decide
    · rcases List.mem_cons.mp h with h2 | h2
      · rw [h2]
        decide
      · cases h2
  exact ⟨h1, (update_population_merge_spec examplePopulation exampleBadUpdates).1.mpr h1⟩

/-! ### Tournament selection -/

lemma pyMinKey_foldl (f : Nat → ℚ) (xs : List Nat) (b : Nat) :
    (xs.foldl (fun best y => if f y < f best then y else best) b = b ∨
      xs.foldl (fun best y => if f y < f best then y else best) b ∈ xs) ∧
    f (xs.foldl (fun best y => if f y < f best then y else best) b) ≤ f b ∧
    ∀ y ∈ xs, f (xs.foldl (fun best y => if f y < f best then y else best) b) ≤ f y := by
  induction xs generalizing b with
  | nil => simp
  | cons z zs ih =>
    simp only [List.foldl_cons]
    by_cases hz : f z < f b
    · rw [if_pos hz]
      obtain ⟨hmem, hle, hall⟩ := ih z
      refine ⟨?_, le_trans hle (le_of_lt hz), ?_⟩
      · rcases hmem with h | h
        · exact Or.inr (List.mem_cons.mpr (Or.inl h))
        · exact Or.inr (List.mem_cons_of_mem z h)
      · intro y hy
        rcases List.mem_cons.mp hy with hyz | hy2
        · subst hyz
          exact hle
        · exact hall y hy2
    · rw [if_neg hz]
      obtain ⟨hmem, hle, hall⟩ := ih b
      refine ⟨?_, hle, ?_⟩
      · rcases hmem with h | h
        · exact Or.inl h
        · exact Or.inr (List.mem_cons_of_mem z h)
      · intro y hy
        rcases List.mem_cons.mp hy with hyz | hy2
        · subst hyz
          exact le_trans hle (not_lt.mp hz)
        · exact hall y hy2

lemma pyMinKey_le (f : Nat → ℚ) {g : List Nat} :
    ∀ j ∈ g, f (pyMinKey f g) ≤ f j := by
  cases g with
  | nil => intro j hj; cases hj
  | cons x xs =>
    intro j hj
    simp only [pyMinKey]
    obtain ⟨_, hle, hall⟩ := pyMinKey_foldl f xs x
    rcases List.mem_cons.mp hj with hjx | hj2
    · subst hjx
      exact hle
    · exact hall j hj2

lemma nodup_map_getD {l ps : List Nat} (hl : l.Nodup) (hps : ps.Nodup)
    (hlt : ∀ p ∈ ps, p < l.length) : (ps.map (fun p => l.getD p 0)).Nodup := by
  refine List.Nodup.map_on ?_ hps
  intro x hx y hy hxy
  rw [List.getD_eq_getElem _ _ (hlt x hx), List.getD_eq_getElem _ _ (hlt y hy)] at hxy
  exact (hl.getElem_inj_iff).mp hxy

/-- Claim C5: tournament selection fails exactly when
`competition_size` exceeds the population or is below `n_competitors`
(stated for `n_competitors ≥ 1`; at `n_competitors = 0` the source
raises instead of returning a `Result`).  On success it returns exactly
`⌊competition_size / n_competitors⌋` winners; under the generator
contract the first draw (`selIdx`) consists of `competition_size`
distinct population positions, the flattened group members (`flatIdx`)
are distinct positions taken from that draw — so the groups are
pairwise disjoint subsets of the drawn set, leftovers beyond
`nGroups · n_competitors` discarded — and the winner of each group `g`
(the consecutive slice of `n_competitors` members) has an evaluation
`≤` that of every member of its group. -/
theorem tournament_selection_spec (rng : Rng) (t : Nat) (population : Population)
    (competition_size : Int) (n_competitors : Nat)
    (hwf : Rng.WF rng) (hnc : 1 ≤ n_competitors) :
    ((∃ e, tournament_selection rng t population competition_size n_competitors = .error e) ↔
      (competition_size > (population.length : Int) ∨
        competition_size < (n_competitors : Int))) ∧
    (∀ winners t1,
      tournament_selection rng t population competition_size n_competitors = .ok (winners, t1) →
      ∀ selIdx flatIdx,
        selIdx = rng.choiceIdx t population.length competition_size.toNat →
        flatIdx = (rng.choiceIdx (t + 1) selIdx.length
            ((competition_size.toNat / n_competitors) * n_competitors)).map
          (fun p => selIdx.getD p 0) →
        winners.length = competition_size.toNat / n_competitors ∧
        selIdx.length = competition_size.toNat ∧
        selIdx.Nodup ∧
        (∀ i ∈ selIdx, i < population.length) ∧
        flatIdx.Nodup ∧
        (∀ i ∈ flatIdx, i ∈ selIdx) ∧
        (∀ g, g < competition_size.toNat / n_competitors →
          ∀ j ∈ (flatIdx.drop (g * n_competitors)).take n_competitors,
            (winners.getD g default).evaluation ≤ (population.getD j default).evaluation)) := by
  constructor
  · simp only [tournament_selection]
    split_ifs with h1 h2
    · exact ⟨fun _ => Or.inl h1, fun _ => ⟨_, rfl⟩⟩
    · exact ⟨fun _ => Or.inr h2, fun _ => ⟨_, rfl⟩⟩
    · constructor
      · rintro ⟨e, he⟩
        exact he.elim
      · intro hor
        rcases hor with h | h
        · exact absurd h h1
        · exact absurd h h2
  · intro winners t1 hok selIdx flatIdx hsel hflat
    simp only [tournament_selection] at hok
    split_ifs at hok with h1 h2
    rw [← hsel] at hok
    rw [← hflat] at hok
    have hpair := Except.ok.inj hok
    have hw : winners = (List.range (competition_size.toNat / n_competitors)).map (fun g =>
        population.getD (pyMinKey (fun j => (population.getD j default).evaluation)
          ((flatIdx.drop (g * n_competitors)).take n_competitors)) default) :=
      (congrArg Prod.fst hpair).symm
    have hcsle : competition_size.toNat ≤ population.length := by omega
    obtain ⟨hlen1, hnd1, hmem1⟩ := hwf.2 t population.length competition_size.toNat hcsle
    have hk2 : (competition_size.toNat / n_competitors) * n_competitors ≤ selIdx.length := by
      rw [hsel, hlen1]
      exact Nat.div_mul_le_self _ _
    obtain ⟨hlen2, hnd2, hmem2⟩ := hwf.2 (t + 1) selIdx.length
      ((competition_size.toNat / n_competitors) * n_competitors) hk2
    have hselnd : selIdx.Nodup := hsel ▸ hnd1
    have hselmem : ∀ i ∈ selIdx, i < population.length := hsel ▸ hmem1
    have hsellen : selIdx.length = competition_size.toNat := hsel ▸ hlen1
    have hflatlen : flatIdx.length = (competition_size.toNat / n_competitors) * n_competitors := by
      rw [hflat, List.length_map, hlen2]
    refine ⟨?_, hsellen, hselnd, hselmem, ?_, ?_, ?_⟩
    · rw [hw, List.length_map, List.length_range]
    · rw [hflat]
      exact nodup_map_getD hselnd hnd2 hmem2
    · intro i hi
      rw [hflat] at hi
      obtain ⟨p, hp, hrfl⟩ := List.mem_map.mp hi
      have hplt : p < selIdx.length := hmem2 p hp
      rw [← hrfl, List.getD_eq_getElem _ _ hplt]
      exact List.getElem_mem hplt
    · intro g hg j hj
      have hgd : winners.getD g default =
          population.getD (pyMinKey (fun j => (population.getD j default).evaluation)
            ((flatIdx.drop (g * n_competitors)).take n_competitors)) default := by
        rw [hw]
        have hglt : g < ((List.range (competition_size.toNat / n_competitors)).map (fun g =>
            population.getD (pyMinKey (fun j => (population.getD j default).evaluation)
              ((flatIdx.drop (g * n_competitors)).take n_competitors)) default)).length := by
          rw [List.length_map, List.length_range]
          exact hg
        rw [List.getD_eq_getElem _ _ hglt, List.getElem_map, List.getElem_range]
      rw [hgd]
      exact pyMinKey_le (fun j => (population.getD j default).evaluation) j hj

/-- Witness for C5: a tournament over four individuals with
`competition_size = 4` and two competitors per group succeeds with
exactly `⌊4 / 2⌋ = 2` winners. -/
theorem tournament_selection_spec_witness :
    Rng.WF cexRng ∧ 1 ≤ 2 ∧
    tournament_selection cexRng 0 tournPop 4 2 = .ok ([⟨1, [0], 3⟩, ⟨3, [0], 1⟩], 2) ∧
    ([⟨1, [0], 3⟩, ⟨3, [0], 1⟩] : Population).length = (4 : Int).toNat / 2 := by
  have hok : tournament_selection cexRng 0 tournPop 4 2 =
      .ok ([⟨1, [0], 3⟩, ⟨3, [0], 1⟩], 2) := by
    norm_num [tournament_selection, cexRng, tournPop, pyMinKey, Int.toNat,
      List.range_succ]
  refine ⟨cexRng_wf, by norm_num, hok, ?_⟩
  exact ((tournament_selection_spec cexRng 0 tournPop 4 2 cexRng_wf (by norm_num)).2
    [⟨1, [0], 3⟩, ⟨3, [0], 1⟩] 2 hok _ _ rfl rfl).1

/-! ### Mutation -/

/-- Claim C6: for the closed `MutationMethod` enumeration (the source's
invalid-method arm is unreachable for its members), `mutate` fails
exactly when the rate is outside `[0, 1]` or the population is empty;
on success, under the generator contract, it returns exactly
`⌊|population| · rate⌋` individuals — drawn at distinct population
positions (without replacement), each with its source individual's
index and evaluation reset to `0` — and only that subset, its length
being `⌊|population| · rate⌋`, not the full population. -/
theorem mutate_spec (rng : Rng) (t : Nat) (method : MutationMethod)
    (population : Population) (mutation_rate : ℚ) (hwf : Rng.WF rng) :
    ((∃ e, mutate rng t method population mutation_rate = .error e) ↔
      (mutation_rate < 0 ∨ mutation_rate > 1 ∨ population = [])) ∧
    (∀ out t2, mutate rng t method population mutation_rate = .ok (out, t2) →
      ∀ idxs, idxs = rng.choiceIdx t population.length
          (⌊(population.length : ℚ) * mutation_rate⌋).toNat →
        out.length = (⌊(population.length : ℚ) * mutation_rate⌋).toNat ∧
        (∀ ind ∈ out, ind.evaluation = 0) ∧
        idxs.Nodup ∧
        (∀ j ∈ idxs, j < population.length) ∧
        idxs.length = (⌊(population.length : ℚ) * mutation_rate⌋).toNat ∧
        (∀ k, k < out.length →
          (out.getD k default).index = (population.getD (idxs.getD k 0) default).index)) := by
  constructor
  · simp only [mutate]
    split_ifs with h1 h2
    · exact ⟨fun _ => h1.imp id Or.inl, fun _ => ⟨_, rfl⟩⟩
    · exact ⟨fun _ => Or.inr (Or.inr (List.length_eq_zero.mp h2)), fun _ => ⟨_, rfl⟩⟩
    · constructor
      · rintro ⟨e, he⟩
        exact he.elim
      · intro hor
        rcases hor with h | h | h
        · exact absurd (Or.inl h) h1
        · exact absurd (Or.inr h) h1
        · refine absurd ?_ h2
          rw [h]
          rfl
  · intro out t2 hok idxs hidx
    simp only [mutate] at hok
    split_ifs at hok with h1 h2
    rw [← hidx] at hok
    have hpair := Except.ok.inj hok
    injection hpair with hout ht2
    subst hout
    push_neg at h1
    obtain ⟨hr0, hr1⟩ := h1
    have hfle : (⌊(population.length : ℚ) * mutation_rate⌋).toNat ≤ population.length := by
      have hmul : (population.length : ℚ) * mutation_rate ≤ (population.length : ℚ) :=
        mul_le_of_le_one_right (by positivity) hr1
      have hf := Int.floor_le_floor hmul
      rw [Int.floor_natCast] at hf
      omega
    obtain ⟨hlen, hnd, hmem⟩ := hwf.2 t population.length _ hfle
    have houtlen : (idxs.enum.map (fun kj =>
        Individual.mk (population.getD kj.2 default).index
          (List.zipWith (fun a b => a + b) (population.getD kj.2 default).point
            (noiseFor rng (t + 1 + kj.1) method (population.getD kj.2 default).point.length))
          0)).length = (⌊(population.length : ℚ) * mutation_rate⌋).toNat := by
      rw [List.length_map, List.enum_length, hidx, hlen]
    refine ⟨houtlen, ?_, hidx ▸ hnd, hidx ▸ hmem, hidx ▸ hlen, ?_⟩
    · intro ind hind
      obtain ⟨kj, _, hrfl⟩ := List.mem_map.mp hind
      rw [← hrfl]
    · intro k hk
      rw [houtlen] at hk
      have hkidx : k < idxs.length := by
        rw [hidx, hlen]
        exact hk
      have hkenum : k < idxs.enum.length := by
        rw [List.enum_length]
        exact hkidx
      rw [List.getD_eq_getElem _ _ (by rw [List.length_map]; exact hkenum),
        List.getElem_map, List.getElem_enum, List.getD_eq_getElem idxs 0 hkidx]

/-- Witness for C6: mutating the two-individual example population at
rate `1/2` succeeds with exactly `⌊2 · 1/2⌋ = 1` individual returned,
its evaluation reset to `0`. -/
theorem mutate_spec_witness :
    Rng.WF cexRng ∧
    mutate cexRng 0 .NORMAL examplePopulation (1/2) = .ok ([⟨0, [10, 11], 0⟩], 2) ∧
    ([⟨0, [10, 11], 0⟩] : Population).length =
      (⌊(examplePopulation.length : ℚ) * (1/2 : ℚ)⌋).toNat := by
  have hok : mutate cexRng 0 .NORMAL examplePopulation (1/2) = .ok ([⟨0, [10, 11], 0⟩], 2) := by
    norm_num [mutate, cexRng, examplePopulation, noiseFor, List.enum, List.range_succ,
      List.replicate, List.zipWith, Int.toNat]
  refine ⟨cexRng_wf, hok, ?_⟩
  exact ((mutate_spec cexRng 0 .NORMAL examplePopulation (1/2) cexRng_wf).2
    [⟨0, [10, 11], 0⟩] 2 hok _ rfl).1

/-! ### Result types, determinism, and the mutation frame property -/

/-- Claim C8 (refuted by the code): the `Result` type is not uniformly
a strict two-variant sum.  The `utils.result.Result` named tuple, used
by `ga/selection.py`, constructs values carrying both a value and an
error (both `is_ok` and `is_error` hold) and values carrying neither;
only the `ga.types.result.Result` class (whose constructor raises,
modelled by `GaResult.make` returning `none`) enforces the
documented XOR invariant. -/
theorem result_two_variant_violated :
    ((UResult.make (some 123) (some "boom") : UResult Nat String).is_ok = true ∧
      (UResult.make (some 123) (some "boom") : UResult Nat String).is_error = true) ∧
    ((UResult.make none none : UResult Nat String).is_ok = false ∧
      (UResult.make none none : UResult Nat String).is_error = false) ∧
    GaResult.make (some 123) (some "boom") = (none : Option (GaResult Nat String)) ∧
    GaResult.make none none = (none : Option (GaResult Nat String)) :=
  ⟨⟨rfl, rfl⟩, ⟨rfl, rfl⟩, rfl, rfl⟩

/-- Claim C9: a run is deterministic given the randomness source.  The
embedding passes the random source explicitly into every stochastic
call, exactly as the code passes its `rng` object into
initialization, selection, recombination and mutation, so the result
of `run` is a function of the configuration, the generation count, and
the sampling oracles alone: two sources with equal oracles yield equal
runs. -/
theorem run_deterministic_given_rng (rng1 rng2 : Rng) (cfg : GAConfig) (n_generations : Nat)
    (hu : rng1.uniform2 = rng2.uniform2) (hc : rng1.choiceIdx = rng2.choiceIdx)
    (hn : rng1.normalAt = rng2.normalAt) (hs : rng1.standardTAt = rng2.standardTAt)
    (hv : rng1.uniformNoiseAt = rng2.uniformNoiseAt) :
    run rng1 cfg n_generations = run rng2 cfg n_generations := by
  have heq : rng1 = rng2 := by
    cases rng1
    cases rng2
    simp_all
  rw [heq]

/-- Witness for C9: two executions with the same concrete source agree. -/
theorem run_deterministic_given_rng_witness :
    (cexRng.uniform2 = cexRng.uniform2 ∧ cexRng.choiceIdx = cexRng.choiceIdx ∧
      cexRng.normalAt = cexRng.normalAt ∧ cexRng.standardTAt = cexRng.standardTAt ∧
      cexRng.uniformNoiseAt = cexRng.uniformNoiseAt) ∧
    run cexRng cexCfg 1 = run cexRng cexCfg 1 :=
  ⟨⟨rfl, rfl, rfl, rfl, rfl⟩,
    run_deterministic_given_rng cexRng cexRng cexCfg 1 rfl rfl rfl rfl rfl⟩

lemma set_append_length (l : List α) (c x : α) :
    (l ++ [c]).set l.length x = l ++ [x] := by
  rw [List.set_append, if_neg (lt_irrefl _), Nat.sub_self]
  rfl

/-- Claim C10: `mutate` never modifies its input array.  At the array
store level — where `rng.choice(population, n, replace=False)`
allocates a fresh array and the mutation loop writes only into it —
the caller's array is unchanged by the call, the returned id is a
different, freshly allocated array, and that fresh array holds exactly
the mutated subset the pure `mutate` returns, so the caller's
population can change only through a subsequent merge of that
result. -/
theorem mutate_frame (rng : Rng) (t : Nat) (method : MutationMethod) (store : Store)
    (popId : Nat) (mutation_rate : ℚ) (hid : popId < store.arrays.length) :
    ((mutateStore rng t method store popId mutation_rate).1.arrays.getD popId [] =
      store.arrays.getD popId []) ∧
    (∀ mid, (mutateStore rng t method store popId mutation_rate).2 = .ok mid →
      mid ≠ popId ∧
      mid < (mutateStore rng t method store popId mutation_rate).1.arrays.length ∧
      ∀ out t2, mutate rng t method (store.arrays.getD popId []) mutation_rate = .ok (out, t2) →
        (mutateStore rng t method store popId mutation_rate).1.arrays.getD mid [] = out) := by
  simp only [mutateStore]
  split_ifs with h1 h2
  · exact ⟨rfl, fun mid h => h.elim⟩
  · exact ⟨rfl, fun mid h => h.elim⟩
  · constructor
    · rw [set_append_length, List.getD_append _ _ _ _ hid]
    · intro mid hmid
      have hmideq : store.arrays.length = mid := Except.ok.inj hmid
      subst hmideq
      refine ⟨by omega, ?_, ?_⟩
      · rw [set_append_length]
        simp
      · intro out t2 hmok
        simp only [mutate] at hmok
        split_ifs at hmok
        have hpair := Except.ok.inj hmok
        injection hpair with hout ht2
        subst hout
        rw [set_append_length]
        have hget : (store.arrays ++
            [((rng.choiceIdx t (store.arrays.getD popId []).length
                (⌊((store.arrays.getD popId []).length : ℚ) * mutation_rate⌋).toNat).map
              (fun j => (store.arrays.getD popId []).getD j default)).enum.map
              (fun kc => Individual.mk kc.2.index
                (List.zipWith (fun a b => a + b) kc.2.point
                  (noiseFor rng (t + 1 + kc.1) method kc.2.point.length)) 0)]).getD
              store.arrays.length [] =
            ((rng.choiceIdx t (store.arrays.getD popId []).length
                (⌊((store.arrays.getD popId []).length : ℚ) * mutation_rate⌋).toNat).map
              (fun j => (store.arrays.getD popId []).getD j default)).enum.map
              (fun kc => Individual.mk kc.2.index
                (List.zipWith (fun a b => a + b) kc.2.point
                  (noiseFor rng (t + 1 + kc.1) method kc.2.point.length)) 0) := by
          rw [List.getD_append_right _ _ _ _ (le_refl _), Nat.sub_self]
          rfl
        rw [hget, List.enum_map, List.map_map]
        rfl

/-- Witness for C10: mutating the example population stored at array id
`0` leaves that array's contents untouched. -/
theorem mutate_frame_witness :
    0 < (Store.mk [examplePopulation]).arrays.length ∧
    (mutateStore cexRng 0 .NORMAL (Store.mk [examplePopulation]) 0 (1/2)).1.arrays.getD 0 [] =
      (Store.mk [examplePopulation]).arrays.getD 0 [] :=
  ⟨by norm_num,
    (mutate_frame cexRng 0 .NORMAL (Store.mk [examplePopulation]) 0 (1/2) (by norm_num)).1⟩
